import Mathlib

/-!
Shallow embedding of the tonkbook source-indexing and retrieval pipeline
(`src/workers/ai/src/services/vectorService.ts`,
`src/workers/ai/src/services/csvQueryService.ts`,
`src/workers/ai/src/services/indexingService.ts`,
`src/tonkbook/src/services/ragService.ts`), together with proofs of the
spec's testable properties about chunking, indexing, progress accounting
and retrieval merging.

Document content is modelled as `List Char`; identifiers and titles as
`String`.  JavaScript string built-ins (`slice`, `trim`, `lastIndexOf`,
`toLowerCase`, `includes`, `split`) are modelled by the helpers below.
-/

namespace Tonkbook

/-- JavaScript whitespace (the set recognised by `String.prototype.trim`):
ASCII whitespace, NBSP, BOM and the Unicode space separators. -/
def isJsWhitespace (c : Char) : Bool :=
  c = ' ' || c = '\t' || c = '\n' || c = '\r' ||
  c = '\u000B' || c = '\u000C' || c = '\u00A0' || c = '\uFEFF' ||
  c = '\u1680' || ('\u2000' <= c && c <= '\u200A') ||
  c = '\u2028' || c = '\u2029' || c = '\u202F' || c = '\u205F' || c = '\u3000'

/-- Model of `s.trim()` on a character list: strip leading and trailing whitespace. -/
def jsTrim (l : List Char) : List Char :=
  ((l.dropWhile isJsWhitespace).reverse.dropWhile isJsWhitespace).reverse

/-- Model of `s.slice(start, end)` for `0 ≤ start ≤ end` (the only regime the code uses). -/
def jsSlice (l : List Char) (s e : Nat) : List Char :=
  (l.drop s).take (e - s)

/-- Does the two-character pattern `". "` occur in `l` at position `i`? -/
def dotSpaceAt (l : List Char) (i : Nat) : Bool :=
  (l.drop i).take 2 == ['.', ' ']

/-- Model of `s.lastIndexOf(". ")`: the largest index at which `". "` occurs,
`none` standing for JavaScript's `-1`. -/
def lastIndexOfDotSpace (l : List Char) : Option Nat :=
  ((List.range l.length).filter (dotSpaceAt l)).getLast?

/-- Model of `s.toLowerCase()` (per character). -/
def jsToLower (l : List Char) : List Char := l.map Char.toLower

/-- Model of `s.includes(t)`: substring test. -/
def jsIncludes (l t : List Char) : Bool :=
  (List.range (l.length + 1)).any (fun i => (l.drop i).take t.length == t)

def splitByPredAux (p : Char → Bool) : List Char → List Char → List (List Char)
  | [], current => [current.reverse]
  | c :: rest, current =>
    if p c then current.reverse :: splitByPredAux p rest []
    else splitByPredAux p rest (c :: current)

/-- Model of `s.split(sep)` for a single-character separator class: the fields
between separator characters, empty fields kept (as JavaScript does). -/
def splitByPredList (p : Char → Bool) (l : List Char) : List (List Char) :=
  splitByPredAux p l []

/-! ## Chunker (`VectorService.chunkDocument` / `calculateChunkCount`)

Constants from the source: `maxChunkSize = 800`, `overlap = 150`.
The sentence-boundary condition `lastSentenceEnd > maxChunkSize * 0.7`
compares an integer index against `800 * 0.7`, which evaluates to the
IEEE-754 double `560`, so the condition is exactly `lastSentenceEnd > 560`. -/

def maxChunkSize : Nat := 800
def chunkOverlap : Nat := 150

/-- The cut position the loop body chooses for the window starting at
`start`: `endIndex = min(start + maxChunkSize, content.length)`, moved
back to the last `". "` boundary when the window does not reach the end
of the content and the boundary lies past 70% of `maxChunkSize`. -/
def actualEndIndexAt (content : List Char) (start : Nat) : Nat :=
  let endIndex := min (start + maxChunkSize) content.length
  let chunkContent := jsSlice content start endIndex
  if endIndex < content.length then
    match lastIndexOfDotSpace chunkContent with
    | some k => if 560 < k then start + k + 1 else endIndex
    | none => endIndex
  else endIndex

/-- Model of `startIndex = Math.max(actualEndIndex - overlap, startIndex + 1)`:
the next window start (ℕ subtraction truncates at 0, which agrees with
`Math.max` against the positive `startIndex + 1`). -/
def nextStartIndex (content : List Char) (start : Nat) : Nat :=
  max (actualEndIndexAt content start - chunkOverlap) (start + 1)

structure SourceDocument where
  id : String
  title : String
  mtype : String
deriving Repr, DecidableEq

structure ChunkMetadata where
  sourceId : String
  sourceType : String
  chunkIndex : Nat
  title : String
deriving Repr, DecidableEq

structure DocumentChunk where
  id : String
  content : List Char
  metadata : ChunkMetadata
deriving Repr, DecidableEq

/-- Loop of `calculateChunkCount`, with explicit fuel standing for the
`while (startIndex < content.length)` iteration (each iteration strictly
increases `startIndex`, so `content.length - startIndex` iterations and
hence that much fuel always suffice; see `countLoop_fuel_irrelevant`). -/
def countLoop (content : List Char) : Nat → Nat → Nat
  | 0, _ => 0
  | fuel + 1, start =>
    if start < content.length then
      let actualEnd := actualEndIndexAt content start
      let finalContent := jsTrim (jsSlice content start actualEnd)
      let produced : Nat := if finalContent.length > 0 then 1 else 0
      let start' := nextStartIndex content start
      if start' ≥ actualEnd then produced
      else produced + countLoop content fuel start'
    else 0

/-- Model of `VectorService.calculateChunkCount(content)`. -/
def calculateChunkCount (content : List Char) : Nat :=
  countLoop content (content.length + 1) 0

/-- Loop of `chunkDocument`, same fuel convention as `countLoop`. -/
def chunkLoop (content : List Char) (source : SourceDocument) :
    Nat → Nat → Nat → List DocumentChunk
  | 0, _, _ => []
  | fuel + 1, start, chunkIndex =>
    if start < content.length then
      let actualEnd := actualEndIndexAt content start
      let finalContent := jsTrim (jsSlice content start actualEnd)
      let produced :=
        if finalContent.length > 0 then
          [{ id := source.id ++ "_chunk_" ++ toString chunkIndex,
             content := finalContent,
             metadata := { sourceId := source.id, sourceType := source.mtype,
                           chunkIndex := chunkIndex, title := source.title } }]
        else []
      let chunkIndex' := chunkIndex + produced.length
      let start' := nextStartIndex content start
      if start' ≥ actualEnd then produced
      else produced ++ chunkLoop content source fuel start' chunkIndex'
    else []

/-- Model of `VectorService.chunkDocument(content, source)`. -/
def chunkDocument (content : List Char) (source : SourceDocument) :
    List DocumentChunk :=
  chunkLoop content source (content.length + 1) 0 0

/-! ### Chunker lemmas -/

theorem nextStartIndex_advance (content : List Char) (start : Nat) :
    start + 1 ≤ nextStartIndex content start :=
  Nat.le_max_right _ _

theorem countLoop_of_ge (content : List Char) (start : Nat)
    (h : content.length ≤ start) : ∀ fuel, countLoop content fuel start = 0 := by
  intro fuel
  cases fuel with
  | zero => rfl
  | succ fuel => simp [countLoop, Nat.not_lt.mpr h]

theorem chunkLoop_of_ge (content : List Char) (source : SourceDocument)
    (start idx : Nat) (h : content.length ≤ start) :
    ∀ fuel, chunkLoop content source fuel start idx = [] := by
  intro fuel
  cases fuel with
  | zero => rfl
  | succ fuel => simp [chunkLoop, Nat.not_lt.mpr h]

/-- Fuel irrelevance for `countLoop`: any fuel of at least
`content.length - start` computes the loop's value; this is the
termination argument for the source's `while` loop (the start index
strictly advances each iteration). -/
theorem countLoop_fuel_irrelevant (content : List Char) :
    ∀ (f₁ : Nat) (f₂ start : Nat),
      content.length - start ≤ f₁ → content.length - start ≤ f₂ →
      countLoop content f₁ start = countLoop content f₂ start := by
  intro f₁
  induction f₁ with
  | zero =>
    intro f₂ start h₁ h₂
    have hge : content.length ≤ start := by omega
    rw [countLoop_of_ge content start hge, countLoop_of_ge content start hge]
  | succ f₁ ih =>
    intro f₂ start h₁ h₂
    by_cases hlt : start < content.length
    · obtain ⟨f₂', rfl⟩ : ∃ k, f₂ = k + 1 := by
        cases f₂ with
        | zero => omega
        | succ k => exact ⟨k, rfl⟩
      simp only [countLoop, if_pos hlt]
      have hadv := nextStartIndex_advance content start
      have hrec : countLoop content f₁ (nextStartIndex content start) =
          countLoop content f₂' (nextStartIndex content start) := by
        apply ih
        · omega
        · omega
      rw [hrec]
    · have hge : content.length ≤ start := Nat.not_lt.mp hlt
      rw [countLoop_of_ge content start hge, countLoop_of_ge content start hge]

/-- Fuel irrelevance for `chunkLoop` (same termination argument). -/
theorem chunkLoop_fuel_irrelevant (content : List Char) (source : SourceDocument) :
    ∀ (f₁ : Nat) (f₂ start idx : Nat),
      content.length - start ≤ f₁ → content.length - start ≤ f₂ →
      chunkLoop content source f₁ start idx = chunkLoop content source f₂ start idx := by
  intro f₁
  induction f₁ with
  | zero =>
    intro f₂ start idx h₁ h₂
    have hge : content.length ≤ start := by omega
    rw [chunkLoop_of_ge content source start idx hge,
      chunkLoop_of_ge content source start idx hge]
  | succ f₁ ih =>
    intro f₂ start idx h₁ h₂
    by_cases hlt : start < content.length
    · obtain ⟨f₂', rfl⟩ : ∃ k, f₂ = k + 1 := by
        cases f₂ with
        | zero => omega
        | succ k => exact ⟨k, rfl⟩
      simp only [chunkLoop, if_pos hlt]
      have hadv := nextStartIndex_advance content start
      have hrec : ∀ j, chunkLoop content source f₁ (nextStartIndex content start) j =
          chunkLoop content source f₂' (nextStartIndex content start) j := by
        intro j
        apply ih
        · omega
        · omega
      rw [hrec]
    · have hge : content.length ≤ start := Nat.not_lt.mp hlt
      rw [chunkLoop_of_ge content source start idx hge,
        chunkLoop_of_ge content source start idx hge]

/-- The count-only loop computes exactly the length of the chunk list
the materializing loop produces, for every fuel, start index and chunk
index: both re-run the identical boundary logic. -/
theorem countLoop_eq_length (content : List Char) (source : SourceDocument) :
    ∀ (fuel start idx : Nat),
      countLoop content fuel start = (chunkLoop content source fuel start idx).length := by
  intro fuel
  induction fuel with
  | zero => intro start idx; rfl
  | succ fuel ih =>
    intro start idx
    simp only [countLoop, chunkLoop]
    by_cases hlt : start < content.length
    · simp only [if_pos hlt]
      by_cases hpr :
          0 < (jsTrim (jsSlice content start (actualEndIndexAt content start))).length
      · by_cases hbr : nextStartIndex content start ≥ actualEndIndexAt content start
        · simp [hpr, hbr]
        · simp [hpr, hbr]
          rw [ih (nextStartIndex content start) (idx + 1)]
          omega
      · by_cases hbr : nextStartIndex content start ≥ actualEndIndexAt content start
        · simp [hpr, hbr]
        · simp [hpr, hbr]
          rw [ih (nextStartIndex content start) idx]
    · simp [hlt]

/-- Every chunk produced by the chunk loop carries the source's id in its
metadata. -/
theorem chunkLoop_sourceId (content : List Char) (source : SourceDocument) :
    ∀ (fuel start idx : Nat) (c : DocumentChunk),
      c ∈ chunkLoop content source fuel start idx → c.metadata.sourceId = source.id := by
  intro fuel
  induction fuel with
  | zero => intro start idx c hc; simp [chunkLoop] at hc
  | succ fuel ih =>
    intro start idx c hc
    simp only [chunkLoop] at hc
    by_cases hlt : start < content.length
    · simp only [if_pos hlt] at hc
      by_cases hpr :
          0 < (jsTrim (jsSlice content start (actualEndIndexAt content start))).length
      · by_cases hbr : nextStartIndex content start ≥ actualEndIndexAt content start
        · simp [hpr, hbr] at hc
          subst hc; rfl
        · simp [hpr, hbr] at hc
          rcases hc with hc | hc
          · subst hc; rfl
          · exact ih _ _ c hc
      · by_cases hbr : nextStartIndex content start ≥ actualEndIndexAt content start
        · simp [hpr, hbr] at hc
        · simp [hpr, hbr] at hc
          exact ih _ _ c hc
    · simp [hlt] at hc

theorem chunkDocument_sourceId (content : List Char) (source : SourceDocument)
    (c : DocumentChunk) (hc : c ∈ chunkDocument content source) :
    c.metadata.sourceId = source.id :=
  chunkLoop_sourceId content source _ _ _ c hc

/-! ## Vector collection model (`VectorService` against the Chroma collection)

The external collection is modelled by the list of chunk rows it holds.
`collection.delete({where:{sourceId}})` is a metadata-filtered delete, and
the batched `collection.add` calls of a successful `addDocument` insert the
whole chunk list in order (the 25-chunk batching and the 100ms inter-batch
delay do not affect the final contents). -/

abbrev VectorCollection := List DocumentChunk

/-- Model of `VectorService.removeDocument(sourceId)`: delete every row whose
metadata `sourceId` matches; deleting an absent id removes nothing, and a
backend "not found" error is swallowed by the source's `catch`, so the
operation is total. -/
def removeDocument (coll : VectorCollection) (sourceId : String) : VectorCollection :=
  coll.filter (fun c => c.metadata.sourceId != sourceId)

/-- Model of `VectorService.addDocument(source, content)`, final-state semantics of
the success path: always delete the source's existing chunks first, then
insert every chunk of the new content (when the content yields no chunks
the function returns right after the delete, which the append with the
empty chunk list also expresses). -/
def addDocument (coll : VectorCollection) (source : SourceDocument)
    (content : List Char) : VectorCollection :=
  removeDocument coll source.id ++ chunkDocument content source

theorem removeDocument_filter_same (coll : VectorCollection) (sourceId : String) :
    (removeDocument coll sourceId).filter
      (fun c => c.metadata.sourceId == sourceId) = [] := by
  apply List.filter_eq_nil_iff.mpr
  intro c hc
  have hmem := (List.mem_filter.mp hc).2
  simpa using hmem

theorem chunkDocument_filter_self (content : List Char) (source : SourceDocument) :
    (chunkDocument content source).filter
      (fun c => c.metadata.sourceId == source.id) = chunkDocument content source := by
  apply List.filter_eq_self.mpr
  intro c hc
  simp [chunkDocument_sourceId content source c hc]

/-- C1. For every content string, the count-only variant
`calculateChunkCount(content)` returns exactly the length of the chunk
list produced by `chunkDocument(content, source)`, for any source; in
particular both give 0 for the empty string. -/
theorem chunk_count_agreement (content : List Char) (source : SourceDocument) :
    calculateChunkCount content = (chunkDocument content source).length ∧
    calculateChunkCount [] = 0 ∧ chunkDocument [] source = [] := by
  refine ⟨countLoop_eq_length content source (content.length + 1) 0 0, rfl, rfl⟩

/-- C2. Calling `addDocument(source, c1)` and then `addDocument(source, c2)`
leaves the collection holding, for that source id, exactly the chunk set
derived from `c2`: `addDocument` always deletes the source's existing
chunks before inserting, so no chunk derived from `c1` remains queryable
(queries filtered by the source's id see exactly `chunkDocument c2`). -/
theorem addDocument_replace_not_merge (coll : VectorCollection)
    (source : SourceDocument) (c1 c2 : List Char) :
    (addDocument (addDocument coll source c1) source c2).filter
      (fun c => c.metadata.sourceId == source.id) = chunkDocument c2 source := by
  unfold addDocument
  rw [List.filter_append, removeDocument_filter_same, chunkDocument_filter_self]
  rfl

/-- C5 (code evaluation at the failing input). Chunking the empty content
yields zero chunks, but chunking the 2-character content `"ab"` — non-empty
and far shorter than `maxSize = 800` — yields 2 chunks, not 1: after
emitting the final window the loop advances the start by
`max(end - overlap, start + 1)` and re-chunks the tail of the content. -/
theorem chunk_short_content_two_chunks :
    chunkDocument [] ⟨"s", "T", "text"⟩ = [] ∧
    (chunkDocument ('a' :: 'b' :: []) ⟨"s", "T", "text"⟩).length = 2 ∧
    calculateChunkCount ('a' :: 'b' :: []) = 2 := by
  refine ⟨rfl, ?_, ?_⟩ <;> decide

/-- C9. The chunking loop terminates: whenever the loop runs another
iteration (`start < content.length`), the next window start is at least
the previous start plus one, so `content.length` iterations of fuel always
suffice — the loop run with any fuel of at least `content.length` computes
`chunkDocument`. -/
theorem chunk_loop_strict_advance (content : List Char) (source : SourceDocument) :
    (∀ start, start < content.length → start + 1 ≤ nextStartIndex content start) ∧
    (∀ fuel, content.length ≤ fuel →
      chunkLoop content source fuel 0 0 = chunkDocument content source) := by
  constructor
  · intro start _
    exact nextStartIndex_advance content start
  · intro fuel h
    exact chunkLoop_fuel_irrelevant content source fuel (content.length + 1) 0 0
      (by omega) (by omega)

/-- Witness for C9 at the concrete content `"ab"`. -/
theorem chunk_loop_strict_advance_witness :
    0 + 1 ≤ nextStartIndex ('a' :: 'b' :: []) 0 ∧
    chunkLoop ('a' :: 'b' :: []) ⟨"s", "T", "text"⟩ 2 0 0 =
      chunkDocument ('a' :: 'b' :: []) ⟨"s", "T", "text"⟩ :=
  ⟨(chunk_loop_strict_advance ('a' :: 'b' :: []) ⟨"s", "T", "text"⟩).1 0 (by decide),
   (chunk_loop_strict_advance ('a' :: 'b' :: []) ⟨"s", "T", "text"⟩).2 2 (by decide)⟩

/-! ## Batch progress (`addDocument` batching and
`IndexingService.indexSource`'s progress callback) -/

/-- Model of `Math.ceil(n / 25)`: the number of 25-chunk batches for `n` chunks. -/
def totalBatchesFor (n : Nat) : Nat := (n + 24) / 25

/-- The four positional arguments `addDocument` passes to its
`onBatchProgress` callback. -/
structure BatchEvent where
  batchIndex : Nat
  totalBatches : Nat
  processedChunks : Nat
  totalChunks : Nat
deriving Repr, DecidableEq

/-- The sequence of `onBatchProgress(batchIndex, totalBatches,
processedChunks, totalChunks)` invocations a successful `addDocument`
makes for a content of `n` chunks: before inserting batch `b + 1` it
reports `(b, T, 25·b, n)` and after it `(b + 1, T, min(25·(b + 1), n), n)`;
when `n = 0` the function returns before the loop and reports nothing. -/
def batchEvents (n : Nat) : List BatchEvent :=
  (List.range (totalBatchesFor n)).flatMap (fun b =>
    [⟨b, totalBatchesFor n, 25 * b, n⟩,
     ⟨b + 1, totalBatchesFor n, min (25 * (b + 1)) n, n⟩])

/-- The tracker's current-batch-in-flight record
(`IndexingService.currentBatchProgress`). -/
structure BatchProgress where
  sourceId : String
  sourceTitle : String
  batchIndex : Nat
  totalChunks : Nat
  processedChunks : Nat
deriving Repr, DecidableEq

/-- Progress-relevant mutable fields of the indexing service. -/
structure IndexingState where
  pendingIndexing : Finset String
  indexedVectorSources : Finset String
  indexedCsvSources : Finset String
  processedBatches : Nat
  currentBatchProgress : Option BatchProgress
deriving DecidableEq

/-- The callback `IndexingService.indexSource` installs, declared with
THREE parameters `(batchIndex, processedChunks, totalChunks)`: it records
the batch in flight and sets
`processedBatches = startingBatchCount + batchIndex`. -/
def onBatchProgress (sourceId sourceTitle : String) (startingBatchCount : Nat)
    (batchIndex processedChunks totalChunks : Nat)
    (st : IndexingState) : IndexingState :=
  { st with
    currentBatchProgress := some
      { sourceId := sourceId, sourceTitle := sourceTitle,
        batchIndex := batchIndex, totalChunks := totalChunks,
        processedChunks := processedChunks },
    processedBatches := startingBatchCount + batchIndex }

/-- Note: `addDocument` invokes the callback with FOUR positional arguments
`(batchIndex, totalBatches, processedChunks, totalChunks)`; a JavaScript
function declared with three parameters binds the first three positionally
and drops the fourth, so the handler's `processedChunks` parameter receives
the caller's `totalBatches` and its `totalChunks` parameter receives the
caller's `processedChunks`. -/
def applyBatchEvent (sourceId sourceTitle : String) (startingBatchCount : Nat)
    (st : IndexingState) (e : BatchEvent) : IndexingState :=
  onBatchProgress sourceId sourceTitle startingBatchCount
    e.batchIndex e.totalBatches e.processedChunks st

/-- C4 (evaluation of the code at the failing input). The source with id
`"s"` and content `"ab"` chunks into 2 chunks, so its first progress
report is `(batchIndex 0, totalBatches 1, processedChunks 0,
totalChunks 2)`; applying the indexing service's callback to it leaves a
current-batch record with `processedChunks = 1` and `totalChunks = 0` —
`totalChunks` is not the source's chunk count 2 and
`processedChunks > totalChunks` — because the three-parameter callback
drops the fourth argument and binds the rest off by one. -/
theorem batch_progress_fields_swapped :
    (chunkDocument ('a' :: 'b' :: []) ⟨"s", "T", "text"⟩).length = 2 ∧
    (batchEvents 2).head? = some ⟨0, 1, 0, 2⟩ ∧
    (applyBatchEvent "s" "T" 0 ⟨∅, ∅, ∅, 0, none⟩
        ⟨0, 1, 0, 2⟩).currentBatchProgress.map
      (fun p => (p.processedChunks, p.totalChunks)) = some (1, 0) := by
  refine ⟨?_, ?_, ?_⟩ <;> decide

/-! ## Monotonicity of `processedBatches` within one scan cycle

During `indexSource` for a vector-eligible source, `processedBatches`
takes the values `startingBatchCount + batchIndex` for each callback
invocation (the `batchIndex` argument, the first positional argument, is
unaffected by the dropped-parameter slip above), and finally
`startingBatchCount + ceil(calculateChunkCount(content) / 25)`; for a CSV
source it is incremented by one.  The traces below list these successive
values; the next source starts from the last value. -/

/-- Successive `processedBatches` values while indexing one vector
source: the callback updates, then the final per-source correction. -/
def processedBatchesVectorTrace (start : Nat) (content : List Char)
    (source : SourceDocument) : List Nat :=
  (batchEvents (chunkDocument content source).length).map
      (fun e => start + e.batchIndex) ++
    [start + totalBatchesFor (calculateChunkCount content)]

/-- Successive `processedBatches` values while indexing one CSV source:
the single `+= 1` increment. -/
def processedBatchesCsvTrace (start : Nat) : List Nat := [start + 1]

/-- One source's worth of indexing work within a scan cycle. -/
inductive SourceWork
  | vector (content : List Char) (source : SourceDocument)
  | csv

def sourceTrace (start : Nat) : SourceWork → List Nat
  | .vector content source => processedBatchesVectorTrace start content source
  | .csv => processedBatchesCsvTrace start

/-- The `processedBatches` values over a whole scan cycle: the sources'
traces in order, each starting from the previous final value. -/
def cycleTrace (start : Nat) : List SourceWork → List Nat
  | [] => []
  | w :: ws =>
    let t := sourceTrace start w
    t ++ cycleTrace (t.getLastD start) ws

theorem map_flatMap_eq {α β γ : Type} (l : List α) (f : α → List β) (g : β → γ) :
    (l.flatMap f).map g = l.flatMap (fun a => (f a).map g) := by
  induction l with
  | nil => rfl
  | cons a t ih => simp [List.flatMap_cons, ih]

theorem getLast?_cons_eq_getLastD {α : Type} (a : α) (l : List α) :
    (a :: l).getLast? = some (l.getLastD a) := by
  induction l generalizing a with
  | nil => rfl
  | cons b t ih => rw [List.getLast?_cons_cons, ih, List.getLastD_cons]

/-- The pre/post `batchIndex` values `0, 1, 1, 2, 2, …, T` followed by the
final correction `T` form a non-decreasing chain from any starting value. -/
theorem chain_range_pairs (T s : Nat) :
    List.Chain' (· ≤ ·)
      (s :: ((List.range T).flatMap (fun b => [s + b, s + b + 1]) ++ [s + T])) := by
  induction T with
  | zero => simp
  | succ T ih =>
    rw [List.range_succ, List.flatMap_append]
    have hshape :
        s :: (((List.range T).flatMap (fun b => [s + b, s + b + 1]) ++
            ([T].flatMap (fun b => [s + b, s + b + 1]))) ++ [s + (T + 1)]) =
          (s :: ((List.range T).flatMap (fun b => [s + b, s + b + 1]) ++ [s + T])) ++
            [s + T + 1, s + T + 1] := by
      simp [List.flatMap_cons]
      omega
    rw [hshape]
    rw [List.chain'_append]
    refine ⟨ih, ?_, ?_⟩
    · exact List.chain'_cons.mpr ⟨Nat.le_refl _, List.chain'_singleton _⟩
    · intro x hx y hy
      rw [getLast?_cons_eq_getLastD, Option.mem_def, Option.some_inj] at hx
      simp only [List.head?_cons, Option.mem_def, Option.some_inj] at hy
      subst hx hy
      rw [List.getLastD_concat]
      omega

theorem calculateChunkCount_eq_length (content : List Char)
    (source : SourceDocument) :
    calculateChunkCount content = (chunkDocument content source).length :=
  countLoop_eq_length content source (content.length + 1) 0 0

theorem vectorTrace_chain (start : Nat) (content : List Char)
    (source : SourceDocument) :
    List.Chain' (· ≤ ·)
      (start :: processedBatchesVectorTrace start content source) := by
  unfold processedBatchesVectorTrace
  rw [calculateChunkCount_eq_length content source]
  have hmap : ∀ b : Nat,
      ([(⟨b, totalBatchesFor (chunkDocument content source).length, 25 * b,
          (chunkDocument content source).length⟩ : BatchEvent),
        ⟨b + 1, totalBatchesFor (chunkDocument content source).length,
          min (25 * (b + 1)) (chunkDocument content source).length,
          (chunkDocument content source).length⟩]).map
        (fun e => start + e.batchIndex) = [start + b, start + b + 1] := by
    intro b; rfl
  simp only [batchEvents, map_flatMap_eq, hmap]
  exact chain_range_pairs (totalBatchesFor (chunkDocument content source).length) start

theorem sourceTrace_chain (start : Nat) (w : SourceWork) :
    List.Chain' (· ≤ ·) (start :: sourceTrace start w) := by
  cases w with
  | vector content source => exact vectorTrace_chain start content source
  | csv =>
    exact List.chain'_cons.mpr ⟨Nat.le_succ start, List.chain'_singleton _⟩

/-- C8. Within one scan cycle the tracker's `processedBatches` never
decreases between two successive snapshots: the values it takes — the
pre-batch and post-batch callback updates (`startingBatchCount +
batchIndex`), the per-source final corrections (`startingBatchCount +
ceil(chunkCount / 25)`) and the CSV `+= 1` increment — form a
non-decreasing chain, each source starting from the previous final value. -/
theorem processed_batches_monotone (start : Nat) (ws : List SourceWork) :
    List.Chain' (· ≤ ·) (start :: cycleTrace start ws) := by
  induction ws generalizing start with
  | nil => exact List.chain'_singleton _
  | cons w ws ih =>
    show List.Chain' (· ≤ ·)
      (start :: (sourceTrace start w ++
        cycleTrace ((sourceTrace start w).getLastD start) ws))
    have h1 := sourceTrace_chain start w
    have h2 := ih ((sourceTrace start w).getLastD start)
    have hshape :
        start :: (sourceTrace start w ++
            cycleTrace ((sourceTrace start w).getLastD start) ws) =
          (start :: sourceTrace start w) ++
            cycleTrace ((sourceTrace start w).getLastD start) ws := rfl
    rw [hshape, List.chain'_append]
    refine ⟨h1, h2.tail, ?_⟩
    intro x hx y hy
    rw [getLast?_cons_eq_getLastD, Option.mem_def, Option.some_inj] at hx
    subst hx
    rcases (List.chain'_cons'.mp h2) with ⟨hhead, _⟩
    exact hhead y hy

/-! ## `IndexingService.indexSource`

The per-source handler: route by `metadata.type`, add to the appropriate
index, update the tracked sets and the progress counters; every failure is
caught at the source boundary (`try { … } catch { pendingIndexing.delete }`).
The awaited backend effects (the Chroma batch adds, the CSV parse) are
abstracted by outcome parameters; a vector failure after `k` successful
batches has emitted the callback events of those batches plus the failing
batch's pre-batch event. -/

/-- The raw source document read from the store (`doc.metadata?.type`
is kept as the raw string the code switches on). -/
structure RawSourceDoc where
  id : Option String
  title : Option String
  content : Option (List Char)
  rawCsvContent : Option (List Char)
  mtype : Option String

/-- Model of `documentPath.replace(/\//g, "_")`. -/
def replaceSlashes (path : String) : String :=
  String.mk (path.toList.map (fun c => if c = '/' then '_' else c))

/-- Model of `doc.id || documentPath.replace(/\//g, "_")`. -/
def sourceIdOf (doc : RawSourceDoc) (path : String) : String :=
  match doc.id with
  | some s => if s = "" then replaceSlashes path else s
  | none => replaceSlashes path

/-- Model of `doc.metadata?.type || "text"`. -/
def sourceTypeOf (doc : RawSourceDoc) : String :=
  match doc.mtype with
  | some s => if s = "" then "text" else s
  | none => "text"

/-- Model of `doc.title || documentPath.split("/").pop() || "Unknown"`. -/
def titleOf (doc : RawSourceDoc) (path : String) : String :=
  let fallback :=
    let last := (String.mk <$> (splitByPredList (fun c => c = '/') path.toList).getLast?).getD ""
    if last = "" then "Unknown" else last
  match doc.title with
  | some s => if s = "" then fallback else s
  | none => fallback

/-- Outcome of the awaited `vectorService.addDocument` call. -/
inductive VectorOutcome
  | success
  | failAfter (k : Nat)

def exceptIsError (e : Except IndexingState IndexingState) : Bool :=
  match e with
  | .error _ => true
  | .ok _ => false

/-- The `try` block of `indexSource`: route by type, run the backend
call, update sets and counters, and remove the path from the pending set;
an error carries the state at the throw point (callbacks already fired). -/
def indexSourceTry (st : IndexingState) (doc : RawSourceDoc) (path : String)
    (vOutcome : VectorOutcome) (csvOk : Bool) :
    Except IndexingState IndexingState :=
  let sourceId := sourceIdOf doc path
  let sourceType := sourceTypeOf doc
  let title := titleOf doc path
  let startingBatchCount := st.processedBatches
  if sourceType = "csv" then
    let csvContent :=
      match doc.rawCsvContent with
      | some l => if l = [] then doc.content else some l
      | none => doc.content
    match csvContent with
    | some l =>
      if l = [] then
        .ok { st with pendingIndexing := st.pendingIndexing.erase path }
      else if csvOk then
        .ok { st with
          indexedCsvSources := insert sourceId st.indexedCsvSources,
          processedBatches := st.processedBatches + 1,
          currentBatchProgress := some ⟨sourceId, title, 1, 1, 1⟩,
          pendingIndexing := st.pendingIndexing.erase path }
      else .error st
    | none =>
      .ok { st with pendingIndexing := st.pendingIndexing.erase path }
  else
    let source : SourceDocument :=
      if sourceType = "text" ∨ sourceType = "pdf" ∨ sourceType = "web" then
        ⟨sourceId, title, sourceType⟩
      else ⟨sourceId, title, "text"⟩
    let content := doc.content.getD []
    let n := (chunkDocument content source).length
    match vOutcome with
    | .success =>
      let st1 := (batchEvents n).foldl
        (applyBatchEvent sourceId title startingBatchCount) st
      .ok { st1 with
        indexedVectorSources := insert sourceId st1.indexedVectorSources,
        processedBatches :=
          startingBatchCount + totalBatchesFor (calculateChunkCount content),
        pendingIndexing := st1.pendingIndexing.erase path }
    | .failAfter k =>
      let st1 := ((batchEvents n).take (2 * k + 1)).foldl
        (applyBatchEvent sourceId title startingBatchCount) st
      .error st1

/-- Model of `indexSource`: the `try` block with its `catch`, which only removes
the path from the pending set (a failed source never rethrows). -/
def indexSource (st : IndexingState) (doc : RawSourceDoc) (path : String)
    (vOutcome : VectorOutcome) (csvOk : Bool) : IndexingState :=
  match indexSourceTry st doc path vOutcome csvOk with
  | .ok st' => st'
  | .error st' => { st' with pendingIndexing := st'.pendingIndexing.erase path }

theorem applyBatchEvent_sets (sourceId sourceTitle : String) (sbc : Nat)
    (st : IndexingState) (e : BatchEvent) :
    (applyBatchEvent sourceId sourceTitle sbc st e).pendingIndexing =
        st.pendingIndexing ∧
      (applyBatchEvent sourceId sourceTitle sbc st e).indexedVectorSources =
        st.indexedVectorSources ∧
      (applyBatchEvent sourceId sourceTitle sbc st e).indexedCsvSources =
        st.indexedCsvSources :=
  ⟨rfl, rfl, rfl⟩

theorem foldl_applyBatchEvent_sets (sourceId sourceTitle : String) (sbc : Nat) :
    ∀ (evs : List BatchEvent) (st : IndexingState),
      ((evs.foldl (applyBatchEvent sourceId sourceTitle sbc) st).pendingIndexing =
          st.pendingIndexing ∧
        (evs.foldl (applyBatchEvent sourceId sourceTitle sbc) st).indexedVectorSources =
          st.indexedVectorSources ∧
        (evs.foldl (applyBatchEvent sourceId sourceTitle sbc) st).indexedCsvSources =
          st.indexedCsvSources) := by
  intro evs
  induction evs with
  | nil => intro st; exact ⟨rfl, rfl, rfl⟩
  | cons e t ih =>
    intro st
    simpa [List.foldl_cons] using ih (applyBatchEvent sourceId sourceTitle sbc st e)

/-- An error from the `try` block carries a state whose pending and
indexed sets are exactly the entry state's: the throw happens before any
set update, and the progress callbacks touch only the counters. -/
theorem indexSourceTry_error_sets (st : IndexingState) (doc : RawSourceDoc)
    (path : String) (v : VectorOutcome) (csvOk : Bool) (e : IndexingState)
    (h : indexSourceTry st doc path v csvOk = .error e) :
    e.pendingIndexing = st.pendingIndexing ∧
      e.indexedVectorSources = st.indexedVectorSources ∧
      e.indexedCsvSources = st.indexedCsvSources := by
  simp only [indexSourceTry] at h
  repeat' split at h
  all_goals
    first
      | exact Except.noConfusion h
      | (injection h with h2; subst h2; exact ⟨rfl, rfl, rfl⟩)
      | (injection h with h2; subst h2;
         exact foldl_applyBatchEvent_sets _ _ _ _ st)

/-- C6. If indexing one source fails (the vector `addDocument` or the CSV
`addCSVSource` call throws), the already-indexed sets still do not contain
that source's id, the pending set no longer contains the document path,
and the error does not propagate out of the per-source handler
(`indexSource` returns a plain state, produced by the `catch`). -/
theorem index_source_failure_isolated (st : IndexingState)
    (doc : RawSourceDoc) (path : String) (v : VectorOutcome) (csvOk : Bool)
    (hV : sourceIdOf doc path ∉ st.indexedVectorSources)
    (hC : sourceIdOf doc path ∉ st.indexedCsvSources)
    (hfail : exceptIsError (indexSourceTry st doc path v csvOk) = true) :
    sourceIdOf doc path ∉ (indexSource st doc path v csvOk).indexedVectorSources ∧
      sourceIdOf doc path ∉ (indexSource st doc path v csvOk).indexedCsvSources ∧
      path ∉ (indexSource st doc path v csvOk).pendingIndexing := by
  cases hm : indexSourceTry st doc path v csvOk with
  | ok s => rw [hm] at hfail; simp [exceptIsError] at hfail
  | error e =>
    obtain ⟨h1, h2, h3⟩ := indexSourceTry_error_sets st doc path v csvOk e hm
    unfold indexSource
    rw [hm]
    refine ⟨by simpa [h2] using hV, by simpa [h3] using hC, ?_⟩
    exact Finset.not_mem_erase path _

/-- Witness for C6: a text source whose first Chroma batch insert fails. -/
theorem index_source_failure_isolated_witness :
    ("s" ∉ (⟨{"tonkbook/data/d1"}, ∅, ∅, 0, none⟩ :
        IndexingState).indexedVectorSources) ∧
    ("s" ∉ (⟨{"tonkbook/data/d1"}, ∅, ∅, 0, none⟩ :
        IndexingState).indexedCsvSources) ∧
    exceptIsError (indexSourceTry ⟨{"tonkbook/data/d1"}, ∅, ∅, 0, none⟩
      ⟨some "s", some "T", some ('a' :: 'b' :: []), none, some "text"⟩
      "tonkbook/data/d1" (.failAfter 0) true) = true ∧
    ("s" ∉ (indexSource ⟨{"tonkbook/data/d1"}, ∅, ∅, 0, none⟩
      ⟨some "s", some "T", some ('a' :: 'b' :: []), none, some "text"⟩
      "tonkbook/data/d1" (.failAfter 0) true).indexedVectorSources ∧
    "s" ∉ (indexSource ⟨{"tonkbook/data/d1"}, ∅, ∅, 0, none⟩
      ⟨some "s", some "T", some ('a' :: 'b' :: []), none, some "text"⟩
      "tonkbook/data/d1" (.failAfter 0) true).indexedCsvSources ∧
    "tonkbook/data/d1" ∉ (indexSource ⟨{"tonkbook/data/d1"}, ∅, ∅, 0, none⟩
      ⟨some "s", some "T", some ('a' :: 'b' :: []), none, some "text"⟩
      "tonkbook/data/d1" (.failAfter 0) true).pendingIndexing) :=
  ⟨by decide, by decide, by decide,
   by
    have h := index_source_failure_isolated
      ⟨{"tonkbook/data/d1"}, ∅, ∅, 0, none⟩
      ⟨some "s", some "T", some ('a' :: 'b' :: []), none, some "text"⟩
      "tonkbook/data/d1" (.failAfter 0) true
      (by decide) (by decide) (by decide)
    simpa [sourceIdOf] using h⟩

/-! ## CSV query service (`CSVQueryService` of the AI worker)

The in-memory cache `csvSources : Map<string, CSVData>` is modelled as an
association list in insertion order (`Map.set` replaces in place,
`Map.delete` removes the key).  A row (`Record<string, string>`) is the
association list from header to cell, built in header order. -/

/-- One row: header/cell pairs in header order. -/
abbrev CsvRow := List (List Char × List Char)

structure CSVData where
  sourceId : String
  title : String
  headers : List (List Char)
  rows : List CsvRow
deriving Repr, DecidableEq

abbrev CsvCache := List (String × CSVData)

def mapHas (m : CsvCache) (k : String) : Bool := m.any (fun p => p.1 == k)

def mapSet (m : CsvCache) (k : String) (v : CSVData) : CsvCache :=
  if mapHas m k then m.map (fun p => if p.1 == k then (k, v) else p)
  else m ++ [(k, v)]

def mapGet (m : CsvCache) (k : String) : Option CSVData :=
  (m.find? (fun p => p.1 == k)).map (fun p => p.2)

/-- The character scan of `parseCSVLine`: `"` toggles the in-quotes flag (and
is not kept), a comma outside quotes ends the current field, each field is
trimmed as it is pushed, and the final field is always pushed. -/
def parseCSVLineAux : List Char → List Char → Bool → List (List Char)
  | [], current, _ => [jsTrim current.reverse]
  | c :: rest, current, inQuotes =>
    if c = '"' then parseCSVLineAux rest current (!inQuotes)
    else if c = ',' ∧ inQuotes = false then
      jsTrim current.reverse :: parseCSVLineAux rest [] inQuotes
    else parseCSVLineAux rest (c :: current) inQuotes

/-- Model of `CSVQueryService.parseCSVLine(line)`. -/
def parseCSVLine (line : List Char) : List (List Char) :=
  parseCSVLineAux line [] false

/-- Model of `row[header] = values[index] || ""` over a JavaScript object: a later
assignment to an existing key overwrites it, a new key is appended. -/
def objSet (row : CsvRow) (k v : List Char) : CsvRow :=
  if row.any (fun p => p.1 == k) then
    row.map (fun p => if p.1 == k then (k, v) else p)
  else row ++ [(k, v)]

/-- Model of `headers.forEach((header, index) => { row[header] = values[index] || "" })`
(an out-of-range or empty `values[index]` both give `""`). -/
def buildRow (headers : List (List Char)) (values : List (List Char)) : CsvRow :=
  headers.enum.foldl (fun row iv => objSet row iv.2 (values.getD iv.1 [])) []

/-- Model of `CSVQueryService.parseCSV(csvContent)`: trim, split into lines, parse
the header line, then build one row per remaining line (a parsed line
always has at least one field, so the `values.length > 0` guard of the
source keeps every line). -/
def parseCSV (csvContent : List Char) :
    List (List Char) × List CsvRow :=
  let lines := splitByPredList (fun c => c = '\n') (jsTrim csvContent)
  match lines with
  | [] => ([], [])
  | headerLine :: dataLines =>
    let headers := parseCSVLine headerLine
    let rows := dataLines.filterMap (fun ln =>
      let values := parseCSVLine ln
      if values.length > 0 then some (buildRow headers values) else none)
    (headers, rows)

/-- Model of `CSVQueryService.addCSVSource(source, csvContent)`: parse and replace
any previously cached record set for the source id. -/
def addCSVSource (m : CsvCache) (source : SourceDocument)
    (csvContent : List Char) : CsvCache :=
  let parsed := parseCSV csvContent
  mapSet m source.id ⟨source.id, source.title, parsed.1, parsed.2⟩

/-- Model of `CSVQueryService.removeCSVSource(sourceId)`: delete from the cache;
no-op when absent. -/
def removeCSVSource (m : CsvCache) (sourceId : String) : CsvCache :=
  if mapHas m sourceId then m.filter (fun p => p.1 != sourceId) else m

/-- The fixed stop-word list of `extractSearchTerms`. -/
def stopWords : List (List Char) :=
  ["the", "and", "or", "but", "in", "on", "at", "to", "for", "of",
   "with", "by"].map String.toList

/-- Model of `CSVQueryService.extractSearchTerms(query)`: lower-case, split on
whitespace, keep terms longer than 2 characters, drop stop words.  (The
source splits on whitespace runs `/\s+/`; splitting on single whitespace
characters only adds empty fields, all removed by the length filter.) -/
def extractSearchTerms (query : List Char) : List (List Char) :=
  ((splitByPredList isJsWhitespace (jsToLower query)).filter
      (fun t => t.length > 2)).filter
    (fun t => !(stopWords.contains t))

/-- Model of `CSVQueryService.findMatchingRows(csvData, searchTerms)`: a row
matches when any term is a substring of the row's cell values joined by
spaces, lower-cased. -/
def findMatchingRows (csvData : CSVData) (searchTerms : List (List Char)) :
    List CsvRow :=
  csvData.rows.filter (fun row =>
    let rowText := jsToLower (List.intercalate [' '] (row.map (fun p => p.2)))
    searchTerms.any (fun term => jsIncludes rowText term))

structure CSVQueryResult where
  sourceId : String
  title : String
  matchingRows : List CsvRow
  matchCount : Nat
  searchTerms : List (List Char)
deriving Repr, DecidableEq

/-- Model of `CSVQueryService.querySource(sourceId, query)`: `null` when the
source is not cached, otherwise all matching rows with their count. -/
def querySource (m : CsvCache) (sourceId : String) (query : List Char) :
    Option CSVQueryResult :=
  match mapGet m sourceId with
  | none => none
  | some csvData =>
    let searchTerms := extractSearchTerms query
    let matchingRows := findMatchingRows csvData searchTerms
    some ⟨sourceId, csvData.title, matchingRows, matchingRows.length,
      searchTerms⟩

/-- C3 (counterexample). For the CSV source cached from
`"a,b\n1,2\n3,4"` (headers `a,b`, rows `{a:1,b:2}` and `{a:3,b:4}`),
`querySource("s1", "b contains 2")` does NOT return the row
`{a:"1", b:"2"}`: term extraction drops `"b"` and `"2"` (length ≤ 2),
keeping only `"contains"`, which matches no row, so `matchCount = 0`. -/
theorem querySource_example_counterexample :
    (querySource (addCSVSource [] ⟨"s1", "test.csv", "csv"⟩
        (String.toList "a,b\n1,2\n3,4")) "s1"
      (String.toList "b contains 2")).map (fun r => r.matchCount) = some 0 ∧
    ¬((querySource (addCSVSource [] ⟨"s1", "test.csv", "csv"⟩
        (String.toList "a,b\n1,2\n3,4")) "s1"
      (String.toList "b contains 2")).map (fun r => r.matchingRows) =
        some [[(String.toList "a", String.toList "1"),
               (String.toList "b", String.toList "2")]]) := by
  refine ⟨?_, ?_⟩ <;> decide

/-- C3 (amended). For that cached CSV source, `querySource("s1",
"b contains 2")` returns a (non-null) result whose `searchTerms` is
exactly `["contains"]`, whose `matchingRows` is empty and whose
`matchCount` is 0: `querySource` has no column-scoped query form, and its
term extraction keeps only terms longer than 2 characters not in the
stop-word list. -/
theorem querySource_example_amended :
    querySource (addCSVSource [] ⟨"s1", "test.csv", "csv"⟩
        (String.toList "a,b\n1,2\n3,4")) "s1"
      (String.toList "b contains 2") =
    some ⟨"s1", "test.csv", [], 0, [String.toList "contains"]⟩ := by
  decide

/-- C10. Removing a source id that is present in neither index:
`removeDocument` (a metadata-filtered delete that treats "not found" as
success) leaves the vector collection unchanged, and `removeCSVSource`
(guarded by `Map.has`) leaves the CSV cache unchanged; both are total
functions, so neither throws. -/
theorem remove_absent_source_noop (coll : VectorCollection) (m : CsvCache)
    (sourceId : String)
    (h1 : ∀ c ∈ coll, c.metadata.sourceId ≠ sourceId)
    (h2 : mapHas m sourceId = false) :
    removeDocument coll sourceId = coll ∧ removeCSVSource m sourceId = m := by
  constructor
  · apply List.filter_eq_self.mpr
    intro c hc
    simpa using h1 c hc
  · simp [removeCSVSource, h2]

/-- Witness for C10: a collection holding another source's chunk and a
cache holding another source's record set. -/
theorem remove_absent_source_noop_witness :
    (∀ c ∈ ([⟨"other_chunk_0", 'x' :: [], ⟨"other", "text", 0, "O"⟩⟩] :
        VectorCollection), c.metadata.sourceId ≠ "gone") ∧
    mapHas [("other", ⟨"other", "O", [], []⟩)] "gone" = false ∧
    removeDocument [⟨"other_chunk_0", 'x' :: [], ⟨"other", "text", 0, "O"⟩⟩]
        "gone" = [⟨"other_chunk_0", 'x' :: [], ⟨"other", "text", 0, "O"⟩⟩] ∧
    removeCSVSource [("other", ⟨"other", "O", [], []⟩)] "gone" =
      [("other", ⟨"other", "O", [], []⟩)] :=
  ⟨by decide, by decide,
   (remove_absent_source_noop
      [⟨"other_chunk_0", 'x' :: [], ⟨"other", "text", 0, "O"⟩⟩]
      [("other", ⟨"other", "O", [], []⟩)] "gone"
      (by decide) (by decide)).1,
   (remove_absent_source_noop
      [⟨"other_chunk_0", 'x' :: [], ⟨"other", "text", 0, "O"⟩⟩]
      [("other", ⟨"other", "O", [], []⟩)] "gone"
      (by decide) (by decide)).2⟩

/-! ## Retrieval merger (`RAGService` in the tonkbook app)

`queryRelevantSources` fans out to the AI worker's vector search (an HTTP
call) and the local CSV smart query, then formats one combined context.
The fetch outcome abstracts the network boundary; the similarity `score`
field (a float the context formatter never reads) is omitted. -/

/-- One text search hit as the merger consumes it. -/
structure RagTextResult where
  content : List Char
  metadata : ChunkMetadata
deriving Repr, DecidableEq

/-- One CSV backend hit after summary formatting. -/
structure RagCsvSource where
  sourceId : String
  title : String
  summary : List Char
  matchCount : Nat
deriving Repr, DecidableEq

/-- Outcome of the `fetch` to the AI worker's `/api/search`: a network or
JSON error, a non-OK HTTP response, or a parsed body whose `results` field
may be missing. -/
inductive FetchOutcome
  | netError
  | notOk
  | ok (results : Option (List RagTextResult))

/-- Model of `RAGService.queryAIWorkerVectorSearch`: both failure modes are caught
and yield the empty result list (`return []`), and a missing `results`
field falls back to `[]` via `result.results || []`. -/
def queryAIWorkerVectorSearch : FetchOutcome → List RagTextResult
  | .netError => []
  | .notOk => []
  | .ok r => r.getD []

def natChars (n : Nat) : List Char := (toString n).toList

/-- Model of `RAGService.formatCsvSummary(csvResult)`. -/
def formatCsvSummary (r : CSVQueryResult) : List Char :=
  let exampleRows := r.matchingRows.take 2
  let summary := String.toList "Found " ++ natChars r.matchCount ++
    String.toList " relevant rows:\n"
  let summary := summary ++ exampleRows.flatMap (fun row =>
    String.toList "â€¢ " ++
      (List.intercalate (String.toList ", ")
        ((row.filter (fun p => p.2.length > 0)).map
          (fun p => p.1 ++ String.toList ": " ++ p.2))) ++
      String.toList "\n")
  if r.matchingRows.length > 2 then
    summary ++ String.toList "... and " ++
      natChars (r.matchingRows.length - 2) ++ String.toList " more rows"
  else summary

/-- Model of `RAGService.buildCombinedContext(textResults, csvSources)`: the text
block, then the CSV block, the fixed no-sources sentence when both are
empty, and a final `trim()`. -/
def buildCombinedContext (textResults : List RagTextResult)
    (csvSources : List RagCsvSource) : List Char :=
  let context :=
    if textResults.length > 0 then
      String.toList "RELEVANT TEXT SOURCES:\n\n" ++
        textResults.enum.flatMap (fun ir =>
          String.toList "Source " ++ natChars (ir.1 + 1) ++
            String.toList " - " ++ ir.2.metadata.title.toList ++
            String.toList " (" ++ ir.2.metadata.sourceType.toList ++
            String.toList "):\n" ++ ir.2.content ++ String.toList "\n\n")
    else []
  let context := context ++
    (if csvSources.length > 0 then
      String.toList "RELEVANT CSV DATA:\n\n" ++
        csvSources.enum.flatMap (fun is =>
          String.toList "CSV " ++ natChars (is.1 + 1) ++
            String.toList " - " ++ is.2.title.toList ++
            String.toList ":\n" ++ is.2.summary ++ String.toList "\n\n")
    else [])
  let context :=
    if context = [] then
      String.toList "No relevant sources found for this query."
    else context
  jsTrim context

structure RAGResult where
  textSources : List RagTextResult
  csvSources : List RagCsvSource
  combinedContext : List Char
deriving Repr, DecidableEq

/-- Model of `RAGService.queryRelevantSources(query, options)` with both backends
included (the defaults): the vector search result comes from the fetch
outcome, the CSV results from the local smart query (passed in as the
backend's output); each CSV hit is summarised, then the combined context
is built. -/
def queryRelevantSources (fetch : FetchOutcome)
    (csvResults : List CSVQueryResult) : RAGResult :=
  let textResults := queryAIWorkerVectorSearch fetch
  let csvSources := csvResults.map (fun r =>
    (⟨r.sourceId, r.title, formatCsvSummary r, r.matchCount⟩ : RagCsvSource))
  ⟨textResults, csvSources, buildCombinedContext textResults csvSources⟩

/-- C7. With both backends contributing zero results,
`queryRelevantSources` returns (it is a total function — no throw) a
combined context equal to the literal
`"No relevant sources found for this query."`, whichever way the vector
backend came up empty; and a failed vector search (network error or
non-OK response) contributes the empty result list instead of aborting
the merge. -/
theorem graceful_empty_retrieval :
    (queryRelevantSources .netError []).combinedContext =
      String.toList "No relevant sources found for this query." ∧
    (queryRelevantSources .notOk []).combinedContext =
      String.toList "No relevant sources found for this query." ∧
    (queryRelevantSources (.ok none) []).combinedContext =
      String.toList "No relevant sources found for this query." ∧
    (queryRelevantSources (.ok (some [])) []).combinedContext =
      String.toList "No relevant sources found for this query." ∧
    queryAIWorkerVectorSearch .netError = [] ∧
    queryAIWorkerVectorSearch .notOk = [] := by
  refine ⟨?_, ?_, ?_, ?_, rfl, rfl⟩ <;> decide

end Tonkbook
